import Mathlib

/-!
Shallow embedding of the Mandelbrot-Renderer repository (C++ sources) in Lean 4.

Number model: the C++ `double` arithmetic is modelled by exact rational
arithmetic (`ℚ`) wherever the source only adds, subtracts, multiplies and
divides, and by exact real arithmetic (`ℝ`) where the source takes square
roots (`std::abs` on `std::complex<double>`).  A comparison `|z| ⋈ c` of a
complex modulus against a nonnegative bound c is encoded on the rational side
as `|z|² ⋈ c²`, which is equivalent over the exact reals; the equivalence for
the Mandelbrot kernel is proved explicitly on the real side
(`mandelbrotAbsGo_eq_ompGo`).

Each definition is translated from a named function of the repository; the
doc comment of every definition names its source location.
-/

/-- Truncation of a rational toward zero, modelling the C++ casts
`static_cast<int>` / `static_cast<unsigned char>` applied to a `double`
value (all call sites in the modelled code apply the cast to values inside
the representable range). -/
def cppTrunc (x : ℚ) : ℤ :=
  if x < 0 then -⌊-x⌋ else ⌊x⌋

/-- C `fmod` on rationals: `fmod(x, y) = x - trunc(x / y) * y`. -/
def qfmod (x y : ℚ) : ℚ :=
  x - y * (cppTrunc (x / y) : ℚ)

/-- Squared modulus `zr² + zi²` of a complex number given by components.
The sources compare moduli either directly in this squared form
(`julia.cpp`, `burning_ship.cpp`, `render_omp.hpp`) or as `std::abs(z) ⋈ c`,
which equals `sqAbs ⋈ c²` over the exact reals. -/
def sqAbs (z : ℚ × ℚ) : ℚ :=
  z.1 * z.1 + z.2 * z.2

/-- Complex division `(a + b i) / (c + d i)` by components, the exact value
computed by `std::complex<double>::operator/`. -/
def cdiv (a b c d : ℚ) : ℚ × ℚ :=
  ((a * c + b * d) / (c * c + d * d), (b * c - a * d) / (c * c + d * d))

/-- RGB triple of 8-bit channel values, `MandelbrotCPU::RGB` from
`include/render.hpp`. -/
abbrev RGB := ℕ × ℕ × ℕ

/-- Loop of `MandelbrotCPU::mandelbrot_iterations` (`src/render.cpp`
lines 22-33): `while (std::abs(z) <= 2.0 && iterations < max_iter)
{ z = z*z + c; ++iterations; }`.  The continuation test `std::abs(z) <= 2.0`
is encoded as `zr² + zi² ≤ 4`; `fuel = max_iter - iterations` counts the
remaining loop capacity. -/
def mandelbrotGo (cr ci : ℚ) : ℚ → ℚ → ℕ → ℕ → ℕ
  | _, _, iterations, 0 => iterations
  | zr, zi, iterations, fuel+1 =>
    if zr * zr + zi * zi ≤ 4 then
      mandelbrotGo cr ci (zr * zr - zi * zi + cr) (2 * zr * zi + ci) (iterations + 1) fuel
    else iterations

/-- `MandelbrotCPU::mandelbrot_iterations(real, imag, max_iter)` from
`src/render.cpp` lines 22-33: z starts at 0 and the loop runs for at most
`max_iter` steps. -/
def mandelbrot_iterations (real imag : ℚ) (max_iter : ℕ) : ℕ :=
  mandelbrotGo real imag 0 0 0 max_iter

/-- Loop of `fractal::JuliaRenderer::julia_iterations` (`src/julia.cpp`
lines 67-90): `for (i = 0; i < max_iter; ++i) { if (zx²+zy² > 4) return i;
z = z² + c; }` with `return max_iter` after the loop.  `fuel = max_iter - i`,
so when the fuel runs out `i = max_iter` is returned. -/
def juliaGo (cx cy : ℚ) : ℚ → ℚ → ℕ → ℕ → ℕ
  | _, _, i, 0 => i
  | zx, zy, i, fuel+1 =>
    if zx * zx + zy * zy > 4 then i
    else juliaGo cx cy (zx * zx - zy * zy + cx) (2 * zx * zy + cy) (i + 1) fuel

/-- `fractal::JuliaRenderer::julia_iterations(x, y, cx, cy, max_iter)` from
`src/julia.cpp` lines 67-90: z starts at the sample point (x, y). -/
def julia_iterations (x y cx cy : ℚ) (max_iter : ℕ) : ℕ :=
  juliaGo cx cy x y 0 max_iter

/-- Loop of `BurningShipCPU::computeBurningShip` (`src/burning_ship.cpp`
lines 52-72): `while (zx*zx + zy*zy < 4.0 && iterations < max_iterations_)
{ take absolute values, square, add c; iterations++; }`.  Note the
continuation test is the strict `< 4.0`, so the loop stops as soon as
`zx² + zy² ≥ 4`. -/
def burningShipGo (cx cy : ℚ) : ℚ → ℚ → ℕ → ℕ → ℕ
  | _, _, iterations, 0 => iterations
  | zx, zy, iterations, fuel+1 =>
    if zx * zx + zy * zy < 4 then
      burningShipGo cx cy (|zx| * |zx| - |zy| * |zy| + cx) (2 * |zx| * |zy| + cy)
        (iterations + 1) fuel
    else iterations

/-- `BurningShipCPU::computeBurningShip(cx, cy)` from `src/burning_ship.cpp`
lines 52-72, with the member `max_iterations_` passed explicitly: z starts
at 0. -/
def computeBurningShip (cx cy : ℚ) (max_iterations : ℕ) : ℕ :=
  burningShipGo cx cy 0 0 0 max_iterations

/-- Reference orbit of the Mandelbrot step rule `z ← z² + c` from `z₀ = 0`,
the sequence of states traversed by `mandelbrot_iterations`. -/
def mandelbrotOrbit (cr ci : ℚ) : ℕ → ℚ × ℚ
  | 0 => (0, 0)
  | n+1 =>
    ((mandelbrotOrbit cr ci n).1 * (mandelbrotOrbit cr ci n).1 -
        (mandelbrotOrbit cr ci n).2 * (mandelbrotOrbit cr ci n).2 + cr,
      2 * (mandelbrotOrbit cr ci n).1 * (mandelbrotOrbit cr ci n).2 + ci)

/-- Reference orbit of the Julia step rule `z ← z² + c` from `z₀ = (x, y)`,
the sequence of states traversed by `julia_iterations`. -/
def juliaOrbit (x y cx cy : ℚ) : ℕ → ℚ × ℚ
  | 0 => (x, y)
  | n+1 =>
    ((juliaOrbit x y cx cy n).1 * (juliaOrbit x y cx cy n).1 -
        (juliaOrbit x y cx cy n).2 * (juliaOrbit x y cx cy n).2 + cx,
      2 * (juliaOrbit x y cx cy n).1 * (juliaOrbit x y cx cy n).2 + cy)

/-- Reference orbit of the Burning Ship step rule
`z ← (|Re z| + i |Im z|)² + c` from `z₀ = 0`, the sequence of states
traversed by `computeBurningShip`. -/
def burningShipOrbit (cx cy : ℚ) : ℕ → ℚ × ℚ
  | 0 => (0, 0)
  | n+1 =>
    (|(burningShipOrbit cx cy n).1| * |(burningShipOrbit cx cy n).1| -
        |(burningShipOrbit cx cy n).2| * |(burningShipOrbit cx cy n).2| + cx,
      2 * |(burningShipOrbit cx cy n).1| * |(burningShipOrbit cx cy n).2| + cy)

/-- `MandelbrotCPU::iterations_to_color(iterations, max_iter)` from
`src/render.cpp` lines 35-75: black when `iterations == max_iter`, otherwise
a six-band rainbow over `t = iterations / max_iter`. -/
def iterations_to_color (iterations max_iter : ℕ) : RGB :=
  if iterations = max_iter then (0, 0, 0)
  else
    let t : ℚ := (iterations : ℚ) / (max_iter : ℚ)
    if t < 0.16 then (255, (cppTrunc (255 * t / 0.16)).toNat, 0)
    else if t < 0.33 then ((cppTrunc (255 * (0.33 - t) / 0.17)).toNat, 255, 0)
    else if t < 0.5 then (0, 255, (cppTrunc (255 * (t - 0.33) / 0.17)).toNat)
    else if t < 0.66 then (0, (cppTrunc (255 * (0.66 - t) / 0.16)).toNat, 255)
    else if t < 0.83 then ((cppTrunc (255 * (t - 0.66) / 0.17)).toNat, 0, 255)
    else (255, 0, (cppTrunc (255 * (1 - t) / 0.17)).toNat)

/-- `fractal::JuliaRenderer::iterations_to_color(iterations, max_iterations,
r, g, b)` from `src/julia.cpp` lines 119-152: black when
`iterations == max_iterations`, otherwise the standard six-sector HSV→RGB
conversion of `hue = 360·iterations/max_iterations`, s = v = 1. -/
def julia_iterations_to_color (iterations max_iterations : ℕ) : RGB :=
  if iterations = max_iterations then (0, 0, 0)
  else
    let hue : ℚ := 360 * (iterations : ℚ) / (max_iterations : ℚ)
    let saturation : ℚ := 1
    let value : ℚ := 1
    let hi : ℤ := cppTrunc (hue / 60) % 6
    let f : ℚ := hue / 60 - (hi : ℚ)
    let p : ℚ := value * (1 - saturation)
    let q : ℚ := value * (1 - f * saturation)
    let t : ℚ := value * (1 - (1 - f) * saturation)
    let rgbq : ℚ × ℚ × ℚ :=
      if hi = 0 then (value, t, p)
      else if hi = 1 then (q, value, p)
      else if hi = 2 then (p, value, t)
      else if hi = 3 then (p, q, value)
      else if hi = 4 then (t, p, value)
      else if hi = 5 then (value, p, q)
      else (0, 0, 0)
    ((cppTrunc (rgbq.1 * 255)).toNat, (cppTrunc (rgbq.2.1 * 255)).toNat,
      (cppTrunc (rgbq.2.2 * 255)).toNat)

/-- Per-pixel color computed by `fractal::JuliaRenderer::save_ppm`
(`src/julia.cpp` lines 92-117): the stored iteration count is colored by
`iterations_to_color(iterations, 1000, ...)` with the hard-coded
normalization constant 1000, not with the max_iterations of the render. -/
def julia_pixel_color (iterations : ℕ) : RGB :=
  julia_iterations_to_color iterations 1000

/-- `BurningShipCPU::hsvToRgb(h, s, v)` from `src/burning_ship.cpp`
lines 115-133: the standard six-sector HSV→RGB formula using
`x = c·(1 - |fmod(h/60, 2) - 1|)`. -/
def bs_hsvToRgb (h s v : ℚ) : RGB :=
  let c : ℚ := v * s
  let x : ℚ := c * (1 - |qfmod (h / 60) 2 - 1|)
  let m : ℚ := v - c
  let rgbq : ℚ × ℚ × ℚ :=
    if h < 60 then (c, x, 0)
    else if h < 120 then (x, c, 0)
    else if h < 180 then (0, c, x)
    else if h < 240 then (0, x, c)
    else if h < 300 then (x, 0, c)
    else (c, 0, x)
  ((cppTrunc ((rgbq.1 + m) * 255)).toNat, (cppTrunc ((rgbq.2.1 + m) * 255)).toNat,
    (cppTrunc ((rgbq.2.2 + m) * 255)).toNat)

/-- `BurningShipCPU::iterationsToRGB(iterations)` from
`src/burning_ship.cpp` lines 74-113, with the member `max_iterations_`
passed explicitly: black when `iterations == max_iterations`, otherwise the
multi-band flame gradient over `t = iterations / max_iterations`. -/
def bs_iterationsToRGB (iterations max_iterations : ℕ) : RGB :=
  if iterations = max_iterations then (0, 0, 0)
  else
    let t : ℚ := (iterations : ℚ) / (max_iterations : ℚ)
    if t < 0.16 then bs_hsvToRgb (240 + t * 60 / 0.16) 1 (0.5 + t * 0.5 / 0.16)
    else if t < 0.42 then bs_hsvToRgb (300 + (t - 0.16) * 60 / 0.26) 1 1
    else if t < 0.6425 then bs_hsvToRgb (0 + (t - 0.42) * 30 / 0.2225) 1 1
    else if t < 0.8575 then bs_hsvToRgb (30 + (t - 0.6425) * 30 / 0.215) 1 1
    else bs_hsvToRgb 60 (1 - (t - 0.8575) / 0.1425) 1

/-- `NewtonFractalCPU::newtonIteration(z)` from `src/newton_fractal.cpp`
lines 69-83: returns z unchanged when `|z²| < 1e-10` (encoded squared as
`|z²|² < (1e-10)²`), otherwise `(2z³ + 1) / (3z²)`. -/
def newtonIteration (zr zi : ℚ) : ℚ × ℚ :=
  let z2r : ℚ := zr * zr - zi * zi
  let z2i : ℚ := 2 * zr * zi
  let z3r : ℚ := z2r * zr - z2i * zi
  let z3i : ℚ := z2r * zi + z2i * zr
  if sqAbs (z2r, z2i) < (1e-10 : ℚ) ^ 2 then (zr, zi)
  else cdiv (2 * z3r + 1) (2 * z3i) (3 * z2r) (3 * z2i)

/-- Newton iteration loop inside `NewtonFractalCPU::render`
(`src/newton_fractal.cpp` lines 31-44): `while (iterations <
max_iterations_) { z_old = z; z = newtonIteration(z); if (|z - z_old| <
1e-6) break; iterations++; }`; the convergence test is encoded squared.
Returns the final z together with the iteration count. -/
def newtonLoop : ℚ → ℚ → ℕ → ℕ → (ℚ × ℚ) × ℕ
  | zr, zi, iterations, 0 => ((zr, zi), iterations)
  | zr, zi, iterations, fuel+1 =>
    let zn := newtonIteration zr zi
    if sqAbs (zn.1 - zr, zn.2 - zi) < (1e-6 : ℚ) ^ 2 then (zn, iterations)
    else newtonLoop zn.1 zn.2 (iterations + 1) fuel

/-- Per-pixel Newton computation of `NewtonFractalCPU::render`
(`src/newton_fractal.cpp` lines 31-44) for sample (cx, cy) and iteration cap
`max_iterations`. -/
def computeNewton (cx cy : ℚ) (max_iterations : ℕ) : (ℚ × ℚ) × ℕ :=
  newtonLoop cx cy 0 max_iterations

/-- `NewtonFractalCPU::identifyRoot(z)` from `src/newton_fractal.cpp`
lines 85-105, with the constants ROOT1 = (1, 0), ROOT2 =
(-0.5, 0.866025403784), ROOT3 = (-0.5, -0.866025403784) and
CONVERGENCE_THRESHOLD = 1e-6 (tests encoded squared). -/
def identifyRoot (zr zi : ℚ) : ℕ :=
  if sqAbs (zr - 1, zi - 0) < (1e-6 : ℚ) ^ 2 then 1
  else if sqAbs (zr - (-0.5), zi - 0.866025403784) < (1e-6 : ℚ) ^ 2 then 2
  else if sqAbs (zr - (-0.5), zi - (-0.866025403784)) < (1e-6 : ℚ) ^ 2 then 3
  else 0

/-- `NewtonFractalCPU::rootToRGB(root, iterations)` from
`src/newton_fractal.cpp` lines 107-134, with the member `max_iterations_`
passed explicitly: black for any root id outside {1, 2, 3}, otherwise the
base color of the root scaled by
`max(0.3, (max_iterations - iterations) / max_iterations)`. -/
def rootToRGB (root iterations max_iterations : ℕ) : RGB :=
  let base : ℕ × ℕ × ℕ :=
    if root = 1 then (255, 50, 50)
    else if root = 2 then (50, 255, 50)
    else if root = 3 then (50, 50, 255)
    else (0, 0, 0)
  if root = 1 ∨ root = 2 ∨ root = 3 then
    let factor : ℚ :=
      max 0.3 (((max_iterations : ℚ) - (iterations : ℚ)) / (max_iterations : ℚ))
    ((cppTrunc ((base.1 : ℚ) * factor)).toNat, (cppTrunc ((base.2.1 : ℚ) * factor)).toNat,
      (cppTrunc ((base.2.2 : ℚ) * factor)).toNat)
  else (0, 0, 0)

/-- Pixel-to-plane mapping of the x axis used by `render_mandelbrot_cpu`
(`src/render.cpp` line 93), `BurningShipCPU::render`
(`src/burning_ship.cpp` line 27) and `NewtonFractalCPU::render`
(`src/newton_fractal.cpp` line 27):
`re = x_min + (x_max - x_min) * px / (width - 1)`. -/
def map_px_to_re (x_min x_max : ℚ) (width px : ℤ) : ℚ :=
  x_min + (x_max - x_min) * (px : ℚ) / ((width : ℚ) - 1)

/-- Pixel-to-plane mapping of the y axis used by `render_mandelbrot_cpu`
(`src/render.cpp` line 94): `im = y_min + (y_max - y_min) * py /
(height - 1)`. -/
def map_py_to_im (y_min y_max : ℚ) (height py : ℤ) : ℚ :=
  y_min + (y_max - y_min) * (py : ℚ) / ((height : ℚ) - 1)

/-- Pixel-to-plane mapping of the x axis used by
`fractal::JuliaRenderer::render` (`src/julia.cpp` lines 29 and 36):
`dx = (x_max - x_min) / width; x = x_min + px * dx`.  Note the divisor is
`width`, not `width - 1`. -/
def julia_map_x (x_min x_max : ℚ) (width px : ℤ) : ℚ :=
  x_min + (px : ℚ) * ((x_max - x_min) / (width : ℚ))

/-- Pixel-to-plane mapping of the y axis used by
`fractal::JuliaRenderer::render` (`src/julia.cpp` lines 30 and 37). -/
def julia_map_y (y_min y_max : ℚ) (height py : ℤ) : ℚ :=
  y_min + (py : ℚ) * ((y_max - y_min) / (height : ℚ))

/-- `MandelbrotCPU::RenderParams` from `include/render.hpp` lines 21-36
(the `int` fields modelled by `ℤ`, the `double` bounds by `ℚ`). -/
structure RenderParams where
  width : ℤ
  height : ℤ
  max_iter : ℤ
  x_min : ℚ
  x_max : ℚ
  y_min : ℚ
  y_max : ℚ

/-- Color of pixel (px, py) as computed by the loop body of
`render_mandelbrot_cpu` (`src/render.cpp` lines 93-100): map the pixel to
the plane, iterate, color. -/
def mandelbrotPixelColor (p : RenderParams) (px py : ℕ) : RGB :=
  iterations_to_color
    (mandelbrot_iterations (map_px_to_re p.x_min p.x_max p.width (px : ℤ))
      (map_py_to_im p.y_min p.y_max p.height (py : ℤ)) p.max_iter.toNat)
    p.max_iter.toNat

/-- Three bytes written for pixel (px, py) by `render_mandelbrot_cpu`
(`src/render.cpp` lines 103-106). -/
def mandelbrotPixel (p : RenderParams) (px py : ℕ) : List ℕ :=
  [(mandelbrotPixelColor p px py).1, (mandelbrotPixelColor p px py).2.1,
    (mandelbrotPixelColor p px py).2.2]

/-- `MandelbrotCPU::render_mandelbrot_cpu(params)` from `src/render.cpp`
lines 77-123: the row-major RGB byte buffer produced by the nested pixel
loops (the timing and progress console output is I/O and does not affect
the buffer; the modulo-by-zero hazard of the progress check at line 110 is
modelled separately by `progress_divisor`). -/
def render_mandelbrot_cpu (p : RenderParams) : List ℕ :=
  (List.range p.height.toNat).flatMap fun py =>
    (List.range p.width.toNat).flatMap fun px => mandelbrotPixel p px py

/-- Validation failure classes of the spec error taxonomy (spec section 7). -/
inductive RenderError
  | InvalidDimensions
  | InvalidIterationBudget
  | InvalidViewport
deriving DecidableEq

/-- Argument validation performed by the CLI driver before any render call
(`src/main.cpp` lines 97-109 and `src/main_unified.cpp` lines 213-225),
followed by the render itself: the driver rejects `width <= 0 || height <=
0`, then `max_iter <= 0`, then `x_min >= x_max || y_min >= y_max`, each
with a distinct error exit, before any pixel is computed.  The engine entry
`render_mandelbrot_cpu` itself performs no validation. -/
def validate_and_render (p : RenderParams) : Except RenderError (List ℕ) :=
  if p.width ≤ 0 ∨ p.height ≤ 0 then .error .InvalidDimensions
  else if p.max_iter ≤ 0 then .error .InvalidIterationBudget
  else if p.x_min ≥ p.x_max ∨ p.y_min ≥ p.y_max then .error .InvalidViewport
  else .ok (render_mandelbrot_cpu p)

/-- Divisor of the progress check `py % (params.height / 10)` in
`render_mandelbrot_cpu` (`src/render.cpp` line 110); C++ `int` division
truncates toward zero. -/
def progress_divisor (height : ℤ) : ℤ :=
  Int.tdiv height 10

/-- Exact real modulus of a complex number given by components, the value
computed by `std::abs` on `std::complex<double>`. -/
noncomputable def rAbs (zr zi : ℝ) : ℝ :=
  Real.sqrt (zr * zr + zi * zi)

/-- Loop of `MandelbrotCPU::mandelbrot_iterations` (`src/render.cpp`
lines 22-33) on the real side, with the continuation test kept in its
source form `std::abs(z) <= 2.0` (true modulus, no squaring). -/
noncomputable def mandelbrotAbsGo (cr ci : ℝ) : ℝ → ℝ → ℕ → ℕ → ℕ
  | _, _, iterations, 0 => iterations
  | zr, zi, iterations, fuel+1 =>
    if rAbs zr zi ≤ 2 then
      mandelbrotAbsGo cr ci (zr * zr - zi * zi + cr) (2 * zr * zi + ci) (iterations + 1) fuel
    else iterations

/-- `MandelbrotCPU::mandelbrot_iterations` (`src/render.cpp` lines 22-33)
with the true-modulus comparison, over exact reals. -/
noncomputable def mandelbrot_iterations_abs (real imag : ℝ) (max_iter : ℕ) : ℕ :=
  mandelbrotAbsGo real imag 0 0 0 max_iter

/-- Loop of `MandelbrotOMP::mandelbrot_iterations_omp`
(`include/render_omp.hpp` lines 56-74): `while (iter < max_iter) { zr2 =
zr*zr; zi2 = zi*zi; if (zr2 + zi2 > 4.0) break; zi = 2*zr*zi + imag; zr =
zr2 - zi2 + real; ++iter; }` (squared-modulus comparison, no square
root). -/
noncomputable def mandelbrotOmpGo (real imag : ℝ) : ℝ → ℝ → ℕ → ℕ → ℕ
  | _, _, iter, 0 => iter
  | zr, zi, iter, fuel+1 =>
    if zr * zr + zi * zi > 4 then iter
    else mandelbrotOmpGo real imag (zr * zr - zi * zi + real) (2 * zr * zi + imag) (iter + 1) fuel

/-- `MandelbrotOMP::mandelbrot_iterations_omp(real, imag, max_iter)` from
`include/render_omp.hpp` lines 56-74, over exact reals. -/
noncomputable def mandelbrot_iterations_omp (real imag : ℝ) (max_iter : ℕ) : ℕ :=
  mandelbrotOmpGo real imag 0 0 0 max_iter

/-- Truncation of a real toward zero, modelling the C++ casts applied to
`double` values in `wasm/src/fractals_wasm.cpp`. -/
noncomputable def cppTruncR (x : ℝ) : ℤ :=
  if x < 0 then -⌊-x⌋ else ⌊x⌋

/-- C `fmod` on reals: `fmod(x, y) = x - trunc(x / y) * y`. -/
noncomputable def rfmod (x y : ℝ) : ℝ :=
  x - y * (cppTruncR (x / y) : ℝ)

/-- Complex division `(a + b i) / (c + d i)` by components over the
reals. -/
noncomputable def cdivR (a b c d : ℝ) : ℝ × ℝ :=
  ((a * c + b * d) / (c * c + d * d), (b * c - a * d) / (c * c + d * d))

/-- `hsvToRgb(h, s, v)` from `wasm/src/fractals_wasm.cpp` lines 21-46
(RGBA output with alpha 255; the first sector additionally requires
`h >= 0`). -/
noncomputable def wasm_hsvToRgb (h s v : ℝ) : ℕ × ℕ × ℕ × ℕ :=
  let c : ℝ := v * s
  let x : ℝ := c * (1 - |rfmod (h / 60) 2 - 1|)
  let m : ℝ := v - c
  let rgbr : ℝ × ℝ × ℝ :=
    if 0 ≤ h ∧ h < 60 then (c, x, 0)
    else if 60 ≤ h ∧ h < 120 then (x, c, 0)
    else if 120 ≤ h ∧ h < 180 then (0, c, x)
    else if 180 ≤ h ∧ h < 240 then (0, x, c)
    else if 240 ≤ h ∧ h < 300 then (x, 0, c)
    else (c, 0, x)
  ((cppTruncR ((rgbr.1 + m) * 255)).toNat, (cppTruncR ((rgbr.2.1 + m) * 255)).toNat,
    (cppTruncR ((rgbr.2.2 + m) * 255)).toNat, 255)

/-- Loop of `mandelbrotIterations` from `wasm/src/fractals_wasm.cpp`
lines 51-62: `for (i = 0; i < maxIter; i++) { if (abs(z) > 2.0) return i;
z = z*z + c; }` with `return maxIter` after the loop. -/
noncomputable def wasmMandelbrotGo (cr ci : ℝ) : ℝ → ℝ → ℕ → ℕ → ℕ
  | _, _, i, 0 => i
  | zr, zi, i, fuel+1 =>
    if rAbs zr zi > 2 then i
    else wasmMandelbrotGo cr ci (zr * zr - zi * zi + cr) (2 * zr * zi + ci) (i + 1) fuel

/-- `mandelbrotIterations(real, imag, maxIter)` from
`wasm/src/fractals_wasm.cpp` lines 51-62. -/
noncomputable def wasmMandelbrotIterations (real imag : ℝ) (maxIter : ℕ) : ℕ :=
  wasmMandelbrotGo real imag 0 0 0 maxIter

/-- Loop of `juliaIterations` from `wasm/src/fractals_wasm.cpp`
lines 68-79: identical to the wasm Mandelbrot loop but starting from the
sample point. -/
noncomputable def wasmJuliaGo (cr ci : ℝ) : ℝ → ℝ → ℕ → ℕ → ℕ
  | _, _, i, 0 => i
  | zr, zi, i, fuel+1 =>
    if rAbs zr zi > 2 then i
    else wasmJuliaGo cr ci (zr * zr - zi * zi + cr) (2 * zr * zi + ci) (i + 1) fuel

/-- `juliaIterations(real, imag, cReal, cImag, maxIter)` from
`wasm/src/fractals_wasm.cpp` lines 68-79. -/
noncomputable def wasmJuliaIterations (real imag cReal cImag : ℝ) (maxIter : ℕ) : ℕ :=
  wasmJuliaGo cReal cImag real imag 0 maxIter

/-- Loop of `burningShipIterations` from `wasm/src/fractals_wasm.cpp`
lines 85-99: escape test `abs(z) > 2.0` before the absolute-value step. -/
noncomputable def wasmBurningShipGo (cr ci : ℝ) : ℝ → ℝ → ℕ → ℕ → ℕ
  | _, _, i, 0 => i
  | zr, zi, i, fuel+1 =>
    if rAbs zr zi > 2 then i
    else
      wasmBurningShipGo cr ci (|zr| * |zr| - |zi| * |zi| + cr) (2 * |zr| * |zi| + ci) (i + 1) fuel

/-- `burningShipIterations(real, imag, maxIter)` from
`wasm/src/fractals_wasm.cpp` lines 85-99. -/
noncomputable def wasmBurningShipIterations (real imag : ℝ) (maxIter : ℕ) : ℕ :=
  wasmBurningShipGo real imag 0 0 0 maxIter

/-- Loop of `newtonIterations` from `wasm/src/fractals_wasm.cpp`
lines 105-132: roots 1, (-0.5, √3/2), (-0.5, -√3/2), tolerance 1e-6;
`break` on denominator underflow and loop exhaustion both return 0,
convergence to root k at index i returns `i + 1000·k`. -/
noncomputable def wasmNewtonGo : ℝ → ℝ → ℕ → ℕ → ℕ
  | _, _, _, 0 => 0
  | zr, zi, i, fuel+1 =>
    let z2r : ℝ := zr * zr - zi * zi
    let z2i : ℝ := 2 * zr * zi
    let z3r : ℝ := z2r * zr - z2i * zi
    let z3i : ℝ := z2r * zi + z2i * zr
    let denr : ℝ := 3 * z2r
    let deni : ℝ := 3 * z2i
    if rAbs denr deni < 1e-6 then 0
    else
      let q := cdivR (z3r - 1) z3i denr deni
      let wr : ℝ := zr - q.1
      let wi : ℝ := zi - q.2
      if rAbs (wr - 1) (wi - 0) < 1e-6 then i + 1000
      else if rAbs (wr - (-0.5)) (wi - Real.sqrt 3 / 2) < 1e-6 then i + 2000
      else if rAbs (wr - (-0.5)) (wi - (-(Real.sqrt 3 / 2))) < 1e-6 then i + 3000
      else wasmNewtonGo wr wi (i + 1) fuel

/-- `newtonIterations(real, imag, maxIter)` from
`wasm/src/fractals_wasm.cpp` lines 105-132. -/
noncomputable def wasmNewtonIterations (real imag : ℝ) (maxIter : ℕ) : ℕ :=
  wasmNewtonGo real imag 0 maxIter

/-- Color mapping of `renderFractalImage` from `wasm/src/fractals_wasm.cpp`
lines 227-264: Newton root-band decoding for type 3, flame colors for
type 2, standard hue sweep otherwise (RGBA, alpha 255). -/
noncomputable def wasmPixelColor (fractalType : ℤ) (iterations maxIter : ℕ) : ℕ × ℕ × ℕ × ℕ :=
  if fractalType = 3 then
    if iterations ≥ 3000 then
      let intensity : ℝ := 1 - ((iterations - 3000 : ℕ) : ℝ) / (maxIter : ℝ)
      (0, 0, (cppTruncR (255 * intensity)).toNat, 255)
    else if iterations ≥ 2000 then
      let intensity : ℝ := 1 - ((iterations - 2000 : ℕ) : ℝ) / (maxIter : ℝ)
      (0, (cppTruncR (255 * intensity)).toNat, 0, 255)
    else if iterations ≥ 1000 then
      let intensity : ℝ := 1 - ((iterations - 1000 : ℕ) : ℝ) / (maxIter : ℝ)
      ((cppTruncR (255 * intensity)).toNat, 0, 0, 255)
    else (0, 0, 0, 255)
  else if fractalType = 2 then
    if iterations = maxIter then (0, 0, 0, 255)
    else
      let t : ℝ := (iterations : ℝ) / (maxIter : ℝ)
      wasm_hsvToRgb (60 * (1 - t)) 1 (Real.sqrt t)
  else
    if iterations = maxIter then (0, 0, 0, 255)
    else
      let t : ℝ := (iterations : ℝ) / (maxIter : ℝ)
      wasm_hsvToRgb (240 * (1 - t)) 1 t

/-- `renderFractalImage` from `wasm/src/fractals_wasm.cpp` lines 177-274:
the guard at lines 189-192 returns (writing no pixel) when `width <= 0 ||
height <= 0 || maxIter <= 0` (the `imageData` null check concerns the
output pointer, which is the return value here); otherwise `zoom <= 0` is
coerced to 1.0, `maxIter > 10000` is clamped to 1000, and the RGBA buffer
is filled row-major. -/
noncomputable def renderFractalImage (fractalType width height : ℤ)
    (centerX centerY zoom cReal cImag : ℝ) (maxIter : ℤ) : List (ℕ × ℕ × ℕ × ℕ) :=
  if width ≤ 0 ∨ height ≤ 0 ∨ maxIter ≤ 0 then []
  else
    let zoom2 : ℝ := if zoom ≤ 0 then 1 else zoom
    let maxIter2 : ℤ := if maxIter > 10000 then 1000 else maxIter
    let scale : ℝ := 4 / zoom2
    let stepX : ℝ := scale / (width : ℝ)
    let stepY : ℝ := scale / (height : ℝ)
    let startX : ℝ := centerX - scale / 2
    let startY : ℝ := centerY - scale / 2
    (List.range height.toNat).flatMap fun y =>
      (List.range width.toNat).flatMap fun x =>
        let real : ℝ := startX + (x : ℝ) * stepX
        let imag : ℝ := startY + (y : ℝ) * stepY
        let iterations : ℕ :=
          if fractalType = 0 then wasmMandelbrotIterations real imag maxIter2.toNat
          else if fractalType = 1 then wasmJuliaIterations real imag cReal cImag maxIter2.toNat
          else if fractalType = 2 then wasmBurningShipIterations real imag maxIter2.toNat
          else if fractalType = 3 then wasmNewtonIterations real imag maxIter2.toNat
          else 0
        [wasmPixelColor fractalType iterations maxIter2.toNat]

/-- Kernel loop of `mandelbrot_iterations` restarted at orbit position n with
`fuel` remaining steps; `mandelbrot_iterations re im m = mandelbrotRunFrom
re im 0 m`. -/
def mandelbrotRunFrom (cr ci : ℚ) (n fuel : ℕ) : ℕ :=
  mandelbrotGo cr ci (mandelbrotOrbit cr ci n).1 (mandelbrotOrbit cr ci n).2 n fuel

/-- Kernel loop of `julia_iterations` restarted at orbit position n with
`fuel` remaining steps. -/
def juliaRunFrom (x y cx cy : ℚ) (n fuel : ℕ) : ℕ :=
  juliaGo cx cy (juliaOrbit x y cx cy n).1 (juliaOrbit x y cx cy n).2 n fuel

/-- Kernel loop of `computeBurningShip` restarted at orbit position n with
`fuel` remaining steps. -/
def burningShipRunFrom (cx cy : ℚ) (n fuel : ℕ) : ℕ :=
  burningShipGo cx cy (burningShipOrbit cx cy n).1 (burningShipOrbit cx cy n).2 n fuel

lemma cppTrunc_eq_floor {x : ℚ} (hx : 0 ≤ x) : cppTrunc x = ⌊x⌋ := by
  rw [cppTrunc, if_neg (not_lt.mpr hx)]

lemma le_toNat_cppTrunc {n : ℕ} {x : ℚ} (h : (n : ℚ) ≤ x) : n ≤ (cppTrunc x).toNat := by
  have hx : 0 ≤ x := le_trans (by positivity) h
  have h2 : (n : ℤ) ≤ ⌊x⌋ := Int.le_floor.mpr (by exact_mod_cast h)
  rw [cppTrunc_eq_floor hx]
  omega

lemma juliaGo_all_zero (i fuel : ℕ) : juliaGo 0 0 0 0 i fuel = i + fuel := by
  induction fuel generalizing i with
  | zero => simp [juliaGo]
  | succ fuel ih =>
    simp only [juliaGo]
    norm_num
    rw [ih]
    omega

lemma mandelbrotRunFrom_succ (cr ci : ℚ) (n fuel : ℕ) :
    mandelbrotRunFrom cr ci n (fuel + 1) =
      if sqAbs (mandelbrotOrbit cr ci n) ≤ 4 then mandelbrotRunFrom cr ci (n + 1) fuel
      else n := by
  simp only [mandelbrotRunFrom, mandelbrotGo, sqAbs, mandelbrotOrbit]

lemma juliaRunFrom_succ (x y cx cy : ℚ) (n fuel : ℕ) :
    juliaRunFrom x y cx cy n (fuel + 1) =
      if 4 < sqAbs (juliaOrbit x y cx cy n) then n
      else juliaRunFrom x y cx cy (n + 1) fuel := by
  simp only [juliaRunFrom, juliaGo, sqAbs, juliaOrbit, gt_iff_lt]

lemma burningShipRunFrom_succ (cx cy : ℚ) (n fuel : ℕ) :
    burningShipRunFrom cx cy n (fuel + 1) =
      if sqAbs (burningShipOrbit cx cy n) < 4 then burningShipRunFrom cx cy (n + 1) fuel
      else n := by
  simp only [burningShipRunFrom, burningShipGo, sqAbs, burningShipOrbit]

lemma mandelbrotRunFrom_spec (cr ci : ℚ) :
    ∀ fuel n : ℕ,
      n ≤ mandelbrotRunFrom cr ci n fuel ∧
      mandelbrotRunFrom cr ci n fuel ≤ n + fuel ∧
      (∀ k, n ≤ k → k < mandelbrotRunFrom cr ci n fuel →
        sqAbs (mandelbrotOrbit cr ci k) ≤ 4) ∧
      (mandelbrotRunFrom cr ci n fuel < n + fuel →
        4 < sqAbs (mandelbrotOrbit cr ci (mandelbrotRunFrom cr ci n fuel))) := by
  intro fuel
  induction fuel with
  | zero =>
    intro n
    have he : mandelbrotRunFrom cr ci n 0 = n := rfl
    rw [he]
    exact ⟨le_refl n, by omega, fun k h1 h2 => absurd (lt_of_le_of_lt h1 h2) (lt_irrefl n),
      fun h => absurd h (by omega)⟩
  | succ fuel ih =>
    intro n
    rcases le_or_lt (sqAbs (mandelbrotOrbit cr ci n)) 4 with h | h
    · rw [mandelbrotRunFrom_succ, if_pos h]
      obtain ⟨ih1, ih2, ih3, ih4⟩ := ih (n + 1)
      refine ⟨by omega, by omega, ?_, fun hlt => ih4 (by omega)⟩
      intro k h1 h2
      rcases eq_or_lt_of_le h1 with rfl | h1
      · exact h
      · exact ih3 k (by omega) h2
    · rw [mandelbrotRunFrom_succ, if_neg (not_le.mpr h)]
      exact ⟨le_refl n, by omega, fun k h1 h2 => absurd (lt_of_le_of_lt h1 h2) (lt_irrefl n),
        fun _ => h⟩

lemma juliaRunFrom_spec (x y cx cy : ℚ) :
    ∀ fuel n : ℕ,
      n ≤ juliaRunFrom x y cx cy n fuel ∧
      juliaRunFrom x y cx cy n fuel ≤ n + fuel ∧
      (∀ k, n ≤ k → k < juliaRunFrom x y cx cy n fuel →
        sqAbs (juliaOrbit x y cx cy k) ≤ 4) ∧
      (juliaRunFrom x y cx cy n fuel < n + fuel →
        4 < sqAbs (juliaOrbit x y cx cy (juliaRunFrom x y cx cy n fuel))) := by
  intro fuel
  induction fuel with
  | zero =>
    intro n
    have he : juliaRunFrom x y cx cy n 0 = n := rfl
    rw [he]
    exact ⟨le_refl n, by omega, fun k h1 h2 => absurd (lt_of_le_of_lt h1 h2) (lt_irrefl n),
      fun h => absurd h (by omega)⟩
  | succ fuel ih =>
    intro n
    rcases le_or_lt (sqAbs (juliaOrbit x y cx cy n)) 4 with h | h
    · rw [juliaRunFrom_succ, if_neg (not_lt.mpr h)]
      obtain ⟨ih1, ih2, ih3, ih4⟩ := ih (n + 1)
      refine ⟨by omega, by omega, ?_, fun hlt => ih4 (by omega)⟩
      intro k h1 h2
      rcases eq_or_lt_of_le h1 with rfl | h1
      · exact h
      · exact ih3 k (by omega) h2
    · rw [juliaRunFrom_succ, if_pos h]
      exact ⟨le_refl n, by omega, fun k h1 h2 => absurd (lt_of_le_of_lt h1 h2) (lt_irrefl n),
        fun _ => h⟩

lemma burningShipRunFrom_spec (cx cy : ℚ) :
    ∀ fuel n : ℕ,
      n ≤ burningShipRunFrom cx cy n fuel ∧
      burningShipRunFrom cx cy n fuel ≤ n + fuel ∧
      (∀ k, n ≤ k → k < burningShipRunFrom cx cy n fuel →
        sqAbs (burningShipOrbit cx cy k) < 4) ∧
      (burningShipRunFrom cx cy n fuel < n + fuel →
        4 ≤ sqAbs (burningShipOrbit cx cy (burningShipRunFrom cx cy n fuel))) := by
  intro fuel
  induction fuel with
  | zero =>
    intro n
    have he : burningShipRunFrom cx cy n 0 = n := rfl
    rw [he]
    exact ⟨le_refl n, by omega, fun k h1 h2 => absurd (lt_of_le_of_lt h1 h2) (lt_irrefl n),
      fun h => absurd h (by omega)⟩
  | succ fuel ih =>
    intro n
    rcases lt_or_le (sqAbs (burningShipOrbit cx cy n)) 4 with h | h
    · rw [burningShipRunFrom_succ, if_pos h]
      obtain ⟨ih1, ih2, ih3, ih4⟩ := ih (n + 1)
      refine ⟨by omega, by omega, ?_, fun hlt => ih4 (by omega)⟩
      intro k h1 h2
      rcases eq_or_lt_of_le h1 with rfl | h1
      · exact h
      · exact ih3 k (by omega) h2
    · rw [burningShipRunFrom_succ, if_neg (not_lt.mpr h)]
      exact ⟨le_refl n, by omega, fun k h1 h2 => absurd (lt_of_le_of_lt h1 h2) (lt_irrefl n),
        fun _ => h⟩

lemma newtonLoop_snd_le : ∀ (fuel : ℕ) (zr zi : ℚ) (iterations : ℕ),
    (newtonLoop zr zi iterations fuel).2 ≤ iterations + fuel := by
  intro fuel
  induction fuel with
  | zero => intro zr zi iterations; simp [newtonLoop]
  | succ fuel ih =>
    intro zr zi iterations
    simp only [newtonLoop]
    split
    · simp
    · exact le_trans (ih _ _ _) (by omega)

lemma mandelbrotAbsGo_eq_ompGo (cr ci : ℝ) :
    ∀ (fuel : ℕ) (zr zi : ℝ) (iterations : ℕ),
      mandelbrotAbsGo cr ci zr zi iterations fuel = mandelbrotOmpGo cr ci zr zi iterations fuel := by
  intro fuel
  induction fuel with
  | zero => intro zr zi iterations; rfl
  | succ fuel ih =>
    intro zr zi iterations
    have hs : 0 ≤ zr * zr + zi * zi := by nlinarith [sq_nonneg zr, sq_nonneg zi]
    have key : rAbs zr zi ≤ 2 ↔ ¬ zr * zr + zi * zi > 4 := by
      rw [rAbs, Real.sqrt_le_left (by norm_num : (0:ℝ) ≤ 2)]
      constructor
      · intro h
        exact not_lt.mpr (by nlinarith)
      · intro h
        nlinarith [not_lt.mp h]
    simp only [mandelbrotAbsGo, mandelbrotOmpGo]
    rcases le_or_lt (rAbs zr zi) 2 with h | h
    · rw [if_pos h, if_neg (key.mp h), ih]
    · rw [if_neg (not_le.mpr h), if_pos (by_contra fun hc => absurd (key.mpr hc) (not_le.mpr h))]

lemma length_flatMap_range {α : Type} (f : ℕ → List α) (k : ℕ) (hk : ∀ i, (f i).length = k) :
    ∀ n, ((List.range n).flatMap f).length = n * k := by
  intro n
  induction n with
  | zero => simp
  | succ n ih =>
    rw [List.range_succ, List.flatMap_append, List.length_append, ih]
    simp [hk, Nat.succ_mul]

lemma getElem?_flatMap_range {α : Type} (f : ℕ → List α) (k : ℕ) (hk : ∀ i, (f i).length = k) :
    ∀ n j r, j < n → r < k → ((List.range n).flatMap f)[j * k + r]? = (f j)[r]? := by
  intro n
  induction n with
  | zero => intro j r hj _; exact absurd hj (Nat.not_lt_zero j)
  | succ n ih =>
    intro j r hj hr
    rw [List.range_succ, List.flatMap_append]
    rcases Nat.lt_or_ge j n with hjn | hjn
    · rw [List.getElem?_append_left]
      · exact ih j r hjn hr
      · rw [length_flatMap_range f k hk n]
        calc j * k + r < j * k + k := by omega
          _ = (j + 1) * k := by ring
          _ ≤ n * k := Nat.mul_le_mul_right k hjn
    · have hj_eq : j = n := by omega
      subst hj_eq
      rw [List.getElem?_append_right (by rw [length_flatMap_range f k hk j]; omega)]
      rw [length_flatMap_range f k hk j]
      have hidx : j * k + r - j * k = r := by omega
      simp [hidx]

/-- C1: corrected.  Each escape-time kernel returns the first iteration
index at which its own stop test holds on the orbit of the variant step
rule from the variant start state, or max_iterations when the test never
triggers within the cap.  For `mandelbrot_iterations` and
`julia_iterations` the stop test is `|z|² > 4` exactly as the claim states;
for the CPU `computeBurningShip` kernel the stop test is `|z|² ≥ 4`,
because its loop continues only while `zx² + zy² < 4`. -/
theorem C1_escape_kernel_step_counts (re im x y cx cy : ℚ) (m : ℕ) :
    (mandelbrot_iterations re im m ≤ m ∧
      (∀ k, k < mandelbrot_iterations re im m → sqAbs (mandelbrotOrbit re im k) ≤ 4) ∧
      (mandelbrot_iterations re im m < m →
        4 < sqAbs (mandelbrotOrbit re im (mandelbrot_iterations re im m)))) ∧
    (julia_iterations x y cx cy m ≤ m ∧
      (∀ k, k < julia_iterations x y cx cy m → sqAbs (juliaOrbit x y cx cy k) ≤ 4) ∧
      (julia_iterations x y cx cy m < m →
        4 < sqAbs (juliaOrbit x y cx cy (julia_iterations x y cx cy m)))) ∧
    (computeBurningShip cx cy m ≤ m ∧
      (∀ k, k < computeBurningShip cx cy m → sqAbs (burningShipOrbit cx cy k) < 4) ∧
      (computeBurningShip cx cy m < m →
        4 ≤ sqAbs (burningShipOrbit cx cy (computeBurningShip cx cy m)))) := by
  have em : mandelbrot_iterations re im m = mandelbrotRunFrom re im 0 m := rfl
  have ej : julia_iterations x y cx cy m = juliaRunFrom x y cx cy 0 m := rfl
  have eb : computeBurningShip cx cy m = burningShipRunFrom cx cy 0 m := rfl
  obtain ⟨-, m2, m3, m4⟩ := mandelbrotRunFrom_spec re im m 0
  obtain ⟨-, j2, j3, j4⟩ := juliaRunFrom_spec x y cx cy m 0
  obtain ⟨-, b2, b3, b4⟩ := burningShipRunFrom_spec cx cy m 0
  rw [em, ej, eb]
  exact ⟨⟨by omega, fun k hk => m3 k (Nat.zero_le k) hk, fun h => m4 (by omega)⟩,
    ⟨by omega, fun k hk => j3 k (Nat.zero_le k) hk, fun h => j4 (by omega)⟩,
    ⟨by omega, fun k hk => b3 k (Nat.zero_le k) hk, fun h => b4 (by omega)⟩⟩

/-- C1 counterexample: at c = (2, 0) with max_iterations = 3 the CPU
Burning Ship kernel returns 1, but `|z₁|² = 4` (so the stop condition
`|z|² > 4` of the claim does not hold at index 1; the first index where it
holds is 2, since `|z₂|² = 36`), and 1 is not max_iterations either. -/
theorem C1_counterexample :
    computeBurningShip 2 0 3 = 1 ∧ sqAbs (burningShipOrbit 2 0 1) = 4 ∧
      sqAbs (burningShipOrbit 2 0 2) = 36 := by
  refine ⟨?_, ?_, ?_⟩
  · show burningShipGo 2 0 0 0 0 3 = 1
    norm_num [burningShipGo]
  · norm_num [burningShipOrbit, sqAbs]
  · norm_num [burningShipOrbit, sqAbs]

/-- C1 witness: the characterization applied at a concrete input. -/
theorem C1_witness : mandelbrot_iterations 0 0 1 ≤ 1 :=
  (C1_escape_kernel_step_counts 0 0 0 0 0 0 1).1.1

/-- C2: corrected.  A Julia start state with `re² + im² > 4` escapes with
steps = 0; but for the Mandelbrot and Burning Ship kernels the start state
is z₀ = 0, which never satisfies the escape test, so a sample c with
`|c|² > 4` (such as the claim example c = (3, 0)) escapes with steps = 1,
not 0. -/
theorem C2_immediate_escape (x y cx cy : ℚ) (m : ℕ) (hm : 0 < m)
    (h : x * x + y * y > 4) :
    julia_iterations x y cx cy m = 0 ∧ mandelbrot_iterations x y m = 1 ∧
      computeBurningShip x y m = 1 := by
  obtain ⟨k, rfl⟩ : ∃ k, m = k + 1 := ⟨m - 1, by omega⟩
  refine ⟨?_, ?_, ?_⟩
  · show juliaGo cx cy x y 0 (k + 1) = 0
    simp only [juliaGo]
    rw [if_pos h]
  · show mandelbrotGo x y 0 0 0 (k + 1) = 1
    simp only [mandelbrotGo]
    rw [if_pos (by norm_num : (0:ℚ) * 0 + 0 * 0 ≤ 4)]
    rw [(by ring : (0:ℚ) * 0 - 0 * 0 + x = x), (by ring : 2 * (0:ℚ) * 0 + y = y)]
    cases k with
    | zero => rfl
    | succ j =>
      simp only [mandelbrotGo]
      rw [if_neg (not_le.mpr h)]
  · show burningShipGo x y 0 0 0 (k + 1) = 1
    simp only [burningShipGo]
    rw [if_pos (by norm_num : (0:ℚ) * 0 + 0 * 0 < 4)]
    rw [(by simp : |(0:ℚ)| * |(0:ℚ)| - |(0:ℚ)| * |(0:ℚ)| + x = x),
      (by simp : 2 * |(0:ℚ)| * |(0:ℚ)| + y = y)]
    cases k with
    | zero => rfl
    | succ j =>
      simp only [burningShipGo]
      rw [if_neg (not_lt.mpr (le_of_lt h))]

/-- C2 counterexample: the claim example c = (3, 0) satisfies
`re² + im² > 4`, yet the Mandelbrot kernel returns 1, not 0. -/
theorem C2_counterexample : (3:ℚ) * 3 + 0 * 0 > 4 ∧ mandelbrot_iterations 3 0 2 = 1 := by
  constructor
  · norm_num
  · show mandelbrotGo 3 0 0 0 0 2 = 1
    norm_num [mandelbrotGo]

/-- C2 witness: the corrected claim applied at c = (3, 0), max_iter = 1. -/
theorem C2_witness :
    0 < 1 ∧ (3:ℚ) * 3 + 0 * 0 > 4 ∧
      (julia_iterations 3 0 0 0 1 = 0 ∧ mandelbrot_iterations 3 0 1 = 1 ∧
        computeBurningShip 3 0 1 = 1) :=
  ⟨Nat.one_pos, by norm_num, C2_immediate_escape 3 0 0 0 1 Nat.one_pos (by norm_num)⟩

/-- C4: corrected.  The mapping `re = x_min + (x_max - x_min)·px/(W-1)`
(and its y analogue) is the one used by `render_mandelbrot_cpu`, and for
W = 801, bounds [-2, 1], px = 400 it yields exactly re = -1/2, independent
of H (the re mapping takes no height argument); but the Julia renderer maps
with step `(x_max - x_min)/W`, i.e. `re = x_min + px·(x_max - x_min)/W`,
not with the /(W-1) formula of the claim. -/
theorem C4_viewport_mapping (x_min x_max y_min y_max : ℚ) (W H px py : ℤ) :
    map_px_to_re (-2) 1 801 400 = -(1/2) ∧
    map_px_to_re x_min x_max W px = x_min + (x_max - x_min) * (px : ℚ) / ((W : ℚ) - 1) ∧
    map_py_to_im y_min y_max H py = y_min + (y_max - y_min) * (py : ℚ) / ((H : ℚ) - 1) ∧
    julia_map_x x_min x_max W px = x_min + (px : ℚ) * ((x_max - x_min) / (W : ℚ)) := by
  refine ⟨?_, rfl, rfl, rfl⟩
  norm_num [map_px_to_re]

/-- C4 counterexample: for bounds [0, 2], W = 2, px = 1 the Julia renderer
samples re = 1 while the claimed /(W-1) formula gives 2. -/
theorem C4_counterexample :
    julia_map_x 0 2 2 1 = 1 ∧ map_px_to_re 0 2 2 1 = 2 := by
  constructor <;> norm_num [julia_map_x, map_px_to_re]

/-- C6: evaluation of the code at the failing input of the division-by-zero
bug.  For W = 1 the divisor `width - 1` of the pixel mapping is 0; in the
exact-rational model the sample evaluates to x_min = 0 (in IEEE doubles the
C++ computes 0.0/0.0 = NaN), while the midpoint of the bounds [0, 2]
demanded by the spec is 1. -/
theorem C6_single_pixel_axis :
    map_px_to_re 0 2 1 0 = 0 ∧ ((0:ℚ) + 2) / 2 = 1 ∧ (1:ℤ) - 1 = 0 := by
  refine ⟨?_, by norm_num, by norm_num⟩
  norm_num [map_px_to_re]

/-- C7: confirmed.  Over exact real arithmetic the true-modulus Mandelbrot
kernel of `render.cpp` (comparing `std::abs(z)` against 2) and the
squared-modulus kernel of `render_omp.hpp` (comparing `zr² + zi²` against
4) return the same step count for every sample and every iteration cap. -/
theorem C7_squared_modulus_equivalence (re im : ℝ) (m : ℕ) :
    mandelbrot_iterations_abs re im m = mandelbrot_iterations_omp re im m :=
  mandelbrotAbsGo_eq_ompGo re im m 0 0 0

/-- C8: confirmed.  Every kernel step count is at most max_iterations (it
is a natural number, hence also ≥ 0), and `identifyRoot` only returns a
root id in {0, 1, 2, 3}. -/
theorem C8_boundedness (re im x y cx cy zr zi : ℚ) (m : ℕ) :
    mandelbrot_iterations re im m ≤ m ∧ julia_iterations x y cx cy m ≤ m ∧
      computeBurningShip cx cy m ≤ m ∧ (computeNewton cx cy m).2 ≤ m ∧
      (identifyRoot zr zi = 0 ∨ identifyRoot zr zi = 1 ∨ identifyRoot zr zi = 2 ∨
        identifyRoot zr zi = 3) := by
  have em : mandelbrot_iterations re im m = mandelbrotRunFrom re im 0 m := rfl
  have ej : julia_iterations x y cx cy m = juliaRunFrom x y cx cy 0 m := rfl
  have eb : computeBurningShip cx cy m = burningShipRunFrom cx cy 0 m := rfl
  have hm := (mandelbrotRunFrom_spec re im m 0).2.1
  have hj := (juliaRunFrom_spec x y cx cy m 0).2.1
  have hb := (burningShipRunFrom_spec cx cy m 0).2.1
  have hn : (computeNewton cx cy m).2 ≤ m := by
    have := newtonLoop_snd_le m cx cy 0
    simpa [computeNewton] using this
  refine ⟨by omega, by omega, by omega, hn, ?_⟩
  unfold identifyRoot
  split_ifs <;> simp

/-- C10: confirmed.  The divisor `params.height / 10` of the progress check
in `render_mandelbrot_cpu` is nonzero exactly when height ≥ 10, so for
every height with 0 < height < 10 the progress check `py % (height / 10)`
is a modulo by zero. -/
theorem C10_progress_divisor_zero_iff (h : ℤ) (hp : 0 < h) :
    progress_divisor h ≠ 0 ↔ 10 ≤ h := by
  rw [progress_divisor, Int.tdiv_eq_ediv (le_of_lt hp) (by norm_num : (0:ℤ) ≤ 10)]
  omega

/-- C10 witness: at height 5 the divisor characterization instantiates. -/
theorem C10_witness : 0 < (5:ℤ) ∧ (progress_divisor 5 ≠ 0 ↔ 10 ≤ (5:ℤ)) :=
  ⟨by decide, C10_progress_divisor_zero_iff 5 (by decide)⟩

lemma rootToRGB_pos_1 (iters m : ℕ) : 0 < (rootToRGB 1 iters m).2.1 := by
  show 0 < (cppTrunc (((50 : ℕ) : ℚ) * max 0.3 (((m : ℚ) - (iters : ℚ)) / (m : ℚ)))).toNat
  refine lt_of_lt_of_le Nat.zero_lt_one (le_toNat_cppTrunc ?_)
  push_cast
  linarith [le_max_left (0.3 : ℚ) (((m : ℚ) - (iters : ℚ)) / (m : ℚ))]

lemma rootToRGB_pos_2 (iters m : ℕ) : 0 < (rootToRGB 2 iters m).1 := by
  show 0 < (cppTrunc (((50 : ℕ) : ℚ) * max 0.3 (((m : ℚ) - (iters : ℚ)) / (m : ℚ)))).toNat
  refine lt_of_lt_of_le Nat.zero_lt_one (le_toNat_cppTrunc ?_)
  push_cast
  linarith [le_max_left (0.3 : ℚ) (((m : ℚ) - (iters : ℚ)) / (m : ℚ))]

lemma rootToRGB_pos_3 (iters m : ℕ) : 0 < (rootToRGB 3 iters m).1 := by
  show 0 < (cppTrunc (((50 : ℕ) : ℚ) * max 0.3 (((m : ℚ) - (iters : ℚ)) / (m : ℚ)))).toNat
  refine lt_of_lt_of_le Nat.zero_lt_one (le_toNat_cppTrunc ?_)
  push_cast
  linarith [le_max_left (0.3 : ℚ) (((m : ℚ) - (iters : ℚ)) / (m : ℚ))]

lemma rootToRGB_ne_black (root iters m : ℕ) (h : root = 1 ∨ root = 2 ∨ root = 3) :
    rootToRGB root iters m ≠ (0, 0, 0) := by
  rcases h with rfl | rfl | rfl
  · intro heq
    have hpos := rootToRGB_pos_1 iters m
    rw [heq] at hpos
    exact absurd hpos (by norm_num)
  · intro heq
    have hpos := rootToRGB_pos_2 iters m
    rw [heq] at hpos
    exact absurd hpos (by norm_num)
  · intro heq
    have hpos := rootToRGB_pos_3 iters m
    rw [heq] at hpos
    exact absurd hpos (by norm_num)

lemma render_mandelbrot_cpu_length (p : RenderParams) :
    (render_mandelbrot_cpu p).length = p.width.toNat * p.height.toNat * 3 := by
  have hrow : ∀ i : ℕ,
      ((List.range p.width.toNat).flatMap fun px => mandelbrotPixel p px i).length =
        p.width.toNat * 3 :=
    fun i => length_flatMap_range (fun px => mandelbrotPixel p px i) 3 (fun _ => rfl)
      p.width.toNat
  have h := length_flatMap_range
    (fun i => (List.range p.width.toNat).flatMap fun px => mandelbrotPixel p px i)
    (p.width.toNat * 3) hrow p.height.toNat
  calc (render_mandelbrot_cpu p).length
      = p.height.toNat * (p.width.toNat * 3) := h
    _ = p.width.toNat * p.height.toNat * 3 := by ring

/-- C3: corrected.  `steps = max_iterations` maps to black for the
Mandelbrot CPU color map and for the Burning Ship color map; the Julia
serializer `save_ppm` colors against the hard-coded normalization constant
1000, so a Julia pixel is black when its step count is 1000 (a step count
equal to max_iterations is in general not black, see the counterexample);
Newton root id 0 (Unresolved) maps to black; and Newton root ids 1-3 are
never black thanks to the 0.3 brightness floor. -/
theorem C3_color_contract (m iters root : ℕ) (_hm : 0 < m) :
    iterations_to_color m m = (0, 0, 0) ∧
      bs_iterationsToRGB m m = (0, 0, 0) ∧
      julia_pixel_color 1000 = (0, 0, 0) ∧
      rootToRGB 0 iters m = (0, 0, 0) ∧
      (root = 1 ∨ root = 2 ∨ root = 3 → rootToRGB root iters m ≠ (0, 0, 0)) :=
  ⟨by simp [iterations_to_color], by simp [bs_iterationsToRGB],
    by simp [julia_pixel_color, julia_iterations_to_color], by simp [rootToRGB],
    fun h => rootToRGB_ne_black root iters m h⟩

/-- C3 counterexample: a Julia render with max_iterations = 500 gives an
in-set pixel the kernel result 500 = max_iterations, yet `save_ppm` colors
it (0, 255, 255) (cyan), not (0, 0, 0), because it normalizes against the
hard-coded 1000. -/
theorem C3_counterexample :
    julia_iterations 0 0 0 0 500 = 500 ∧ julia_pixel_color 500 = (0, 255, 255) := by
  constructor
  · show juliaGo 0 0 0 0 0 500 = 500
    simpa using juliaGo_all_zero 0 500
  · show julia_iterations_to_color 500 1000 = (0, 255, 255)
    norm_num [julia_iterations_to_color, cppTrunc]
    decide

/-- C3 witness: the corrected color contract applied at max_iterations = 7,
iterations = 2, root = 1. -/
theorem C3_witness :
    iterations_to_color 7 7 = (0, 0, 0) ∧
      bs_iterationsToRGB 7 7 = (0, 0, 0) ∧
      julia_pixel_color 1000 = (0, 0, 0) ∧
      rootToRGB 0 2 7 = (0, 0, 0) ∧
      (1 = 1 ∨ 1 = 2 ∨ 1 = 3 → rootToRGB 1 2 7 ≠ (0, 0, 0)) :=
  C3_color_contract 7 2 1 (by decide)

/-- C5: corrected.  The engine entry `render_mandelbrot_cpu` performs no
validation at all: it computes the full W·H·3 byte buffer for every
request, including invalid viewports.  The validation of the claim lives in
the CLI driver (`main.cpp`), which rejects invalid dimensions, then an
invalid iteration budget, then an invalid viewport, each before any pixel
is computed; the wasm entry `renderFractalImage` silently writes no pixel
when `width ≤ 0 ∨ height ≤ 0 ∨ maxIter ≤ 0` and never checks a viewport
(it coerces `zoom ≤ 0` to 1 instead of failing). -/
theorem C5_validation (p : RenderParams) (ft w h : ℤ) (cX cY zm cR cI : ℝ) (mi : ℤ) :
    ((p.width ≤ 0 ∨ p.height ≤ 0) → validate_and_render p = .error .InvalidDimensions) ∧
      (¬(p.width ≤ 0 ∨ p.height ≤ 0) → ¬p.max_iter ≤ 0 →
        (p.x_min ≥ p.x_max ∨ p.y_min ≥ p.y_max) →
        validate_and_render p = .error .InvalidViewport) ∧
      (render_mandelbrot_cpu p).length = p.width.toNat * p.height.toNat * 3 ∧
      ((w ≤ 0 ∨ h ≤ 0 ∨ mi ≤ 0) → renderFractalImage ft w h cX cY zm cR cI mi = []) := by
  refine ⟨?_, ?_, render_mandelbrot_cpu_length p, ?_⟩
  · intro hd
    rw [validate_and_render, if_pos hd]
  · intro hd hi hv
    rw [validate_and_render, if_neg hd, if_neg hi, if_pos hv]
  · intro hbad
    unfold renderFractalImage
    rw [if_pos hbad]

/-- C5 counterexample: on the invalid viewport x_min = 1 ≥ 0 = x_max the
engine entry does not fail: it computes the complete 2·10·3 = 60 byte
pixel buffer. -/
theorem C5_counterexample :
    (1 : ℚ) ≥ 0 ∧ (render_mandelbrot_cpu ⟨2, 10, 1, 1, 0, 0, 1⟩).length = 60 := by
  constructor
  · norm_num
  · rw [render_mandelbrot_cpu_length]
    decide

/-- C5 witness: the corrected validation behavior at concrete requests. -/
theorem C5_witness :
    validate_and_render ⟨0, 5, 1, 0, 1, 0, 1⟩ = .error .InvalidDimensions ∧
      validate_and_render ⟨2, 5, 1, 1, 0, 0, 1⟩ = .error .InvalidViewport ∧
      renderFractalImage 0 0 5 0 0 1 0 0 5 = [] :=
  ⟨(C5_validation ⟨0, 5, 1, 0, 1, 0, 1⟩ 0 0 5 0 0 1 0 0 5).1 (Or.inl (by decide)),
    (C5_validation ⟨2, 5, 1, 1, 0, 0, 1⟩ 0 0 5 0 0 1 0 0 5).2.1 (by decide) (by decide)
      (Or.inl (by norm_num)),
    (C5_validation ⟨2, 5, 1, 1, 0, 0, 1⟩ 0 0 5 0 0 1 0 0 5).2.2.2 (Or.inl (by decide))⟩

/-- C9: confirmed.  Every byte of the buffer produced by
`render_mandelbrot_cpu` is the stated pure function of the pixel coordinate
and the request alone (sample, iterate, color, stored at row-major index
`(py·W + px)·3`); repeated renders of the identical request therefore
produce identical buffers. -/
theorem C9_pixel_purity (p : RenderParams) (px py : ℕ)
    (hpx : px < p.width.toNat) (hpy : py < p.height.toNat) :
    (render_mandelbrot_cpu p)[(py * p.width.toNat + px) * 3]? =
        some (mandelbrotPixelColor p px py).1 ∧
      (render_mandelbrot_cpu p)[(py * p.width.toNat + px) * 3 + 1]? =
        some (mandelbrotPixelColor p px py).2.1 ∧
      (render_mandelbrot_cpu p)[(py * p.width.toNat + px) * 3 + 2]? =
        some (mandelbrotPixelColor p px py).2.2 := by
  have hrow : ∀ i : ℕ,
      ((List.range p.width.toNat).flatMap fun px2 => mandelbrotPixel p px2 i).length =
        p.width.toNat * 3 :=
    fun i => length_flatMap_range (fun px2 => mandelbrotPixel p px2 i) 3 (fun _ => rfl)
      p.width.toNat
  have houter := getElem?_flatMap_range
    (fun i => (List.range p.width.toNat).flatMap fun px2 => mandelbrotPixel p px2 i)
    (p.width.toNat * 3) hrow p.height.toNat
  have hinner := getElem?_flatMap_range (fun px2 => mandelbrotPixel p px2 py) 3
    (fun _ => rfl) p.width.toNat
  have key : ∀ c : ℕ, c < 3 →
      (render_mandelbrot_cpu p)[(py * p.width.toNat + px) * 3 + c]? =
        (mandelbrotPixel p px py)[c]? := by
    intro c hc
    have e : (py * p.width.toNat + px) * 3 + c = py * (p.width.toNat * 3) + (px * 3 + c) := by
      ring
    rw [show render_mandelbrot_cpu p =
      (List.range p.height.toNat).flatMap
        (fun i => (List.range p.width.toNat).flatMap fun px2 => mandelbrotPixel p px2 i)
      from rfl]
    rw [e, houter py (px * 3 + c) hpy (by omega)]
    exact hinner px c hpx hc
  refine ⟨?_, ?_, ?_⟩
  · simpa using key 0 (by omega)
  · simpa using key 1 (by omega)
  · simpa using key 2 (by omega)

/-- C9 witness: the purity statement at a concrete request and pixel. -/
theorem C9_witness :
    (render_mandelbrot_cpu ⟨2, 1, 1, 0, 1, 0, 1⟩)[0]? =
      some (mandelbrotPixelColor ⟨2, 1, 1, 0, 1, 0, 1⟩ 0 0).1 :=
  (C9_pixel_purity ⟨2, 1, 1, 0, 1, 0, 1⟩ 0 0 (by decide) (by decide)).1
